import Mathlib

/-!
Shallow embedding of the SnapNFind visual product matcher.

Source files embedded here:
* `src/backend/main.py` — the online matcher (`/match` endpoint and its helpers
  `pil_open_and_normalize`, `img_to_embedding`, `img_bytes_to_emb`, `safe_float`,
  `_image_url_out`).
* `src/backend/precompute_embeddings_images.py` — the offline index builder
  (`compute_img_emb`, `main`).

Modelling conventions:
* numpy float arrays become `List ℝ`; float arithmetic is modelled exactly over ℝ
  (`np.linalg.norm v = Real.sqrt (Σ vᵢ²)`); the `.astype(np.float32)` casts are
  identity in this model.
* External collaborators (PIL decoding, LANCZOS resampling, the CLIP encoder
  `model.encode`, `requests.get`, `os.path.exists`) are opaque function
  parameters carried in a context structure, exactly as the spec treats them.
* `sklearn.metrics.pairwise.cosine_similarity` divides by the row norms after
  replacing zero norms by 1 (so a zero row yields similarity 0); `cosSim` mirrors
  that.
* `np.argsort` (ascending) is modelled as an insertion sort of the index list
  by value; numpy's default `kind='quicksort'` introsort is likewise
  value-based with an implementation-defined (not stable in general) tie
  order, so no theorem below relies on any tie order — only on the result
  being a value-sorted permutation of `range n`.  On the ≤2-element inputs of
  the concrete runs in this file numpy's introsort degrades to the same
  insertion sort, so the traced outputs are numpy's actual ones.  Line 133 of
  `main.py` then reverses the result wholesale.
* Exceptions become `Except`/`Option`; FastAPI `HTTPException(status, detail)`
  becomes the `HErr` structure.
-/

/-- Float vectors (numpy 1-d arrays) are modelled as lists of reals. -/
abbrev Vec := List ℝ

/-- Dot product of two vectors, `np.dot` / the numerator of cosine similarity.
(numpy would raise on a length mismatch; `zipWith` truncates, and every use
below is guarded so the mismatch case never feeds a truncated dot product into
a result.) -/
def dot (x y : Vec) : ℝ := (List.zipWith (· * ·) x y).sum

/-- Sum of squares of the entries, the square of `np.linalg.norm`. -/
def sumSq (x : Vec) : ℝ := (x.map (fun a => a ^ 2)).sum

/-- `np.linalg.norm x` (2-norm). -/
noncomputable def l2norm (x : Vec) : ℝ := Real.sqrt (sumSq x)

/-- The epsilon guard `1e-10` used by both `img_to_embedding` (main.py line 69)
and the product-row normalization (precompute line 66). -/
noncomputable def eps : ℝ := 1 / 10 ^ 10

/-- `emb / (np.linalg.norm(emb) + 1e-10)`: the epsilon-guarded L2
normalization shared by `img_to_embedding` (main.py lines 68–70) and the
product-row averaging step (precompute lines 64–67). -/
noncomputable def normalizeEps (v : Vec) : Vec :=
  v.map (fun a => a / (l2norm v + eps))

/-- `sklearn.metrics.pairwise.cosine_similarity` on two single rows: the rows
are L2-normalized (rows of norm 0 are left unchanged, since sklearn replaces a
zero norm by 1), then dotted.  Hence a zero vector has similarity 0 with
everything. -/
noncomputable def cosSim (x y : Vec) : ℝ :=
  if l2norm x = 0 ∨ l2norm y = 0 then 0 else dot x y / (l2norm x * l2norm y)

theorem sumSq_nonneg (v : Vec) : 0 ≤ sumSq v := by
  induction v with
  | nil => simp [sumSq]
  | cons a t ih =>
    simp only [sumSq, List.map_cons, List.sum_cons] at *
    have := sq_nonneg a
    linarith

theorem l2norm_nonneg (v : Vec) : 0 ≤ l2norm v := Real.sqrt_nonneg _

theorem l2norm_eq_zero_iff (v : Vec) : l2norm v = 0 ↔ sumSq v = 0 := by
  unfold l2norm
  rw [Real.sqrt_eq_zero (sumSq_nonneg v)]

theorem l2norm_add_eps_pos (v : Vec) : 0 < l2norm v + eps := by
  have h1 := l2norm_nonneg v
  have h2 : (0 : ℝ) < eps := by unfold eps; norm_num
  linarith

/-- Scaling each entry by `1/c` scales the sum of squares by `1/c²`. -/
theorem sumSq_map_div (v : Vec) (c : ℝ) :
    sumSq (v.map (fun a => a / c)) = sumSq v / c ^ 2 := by
  induction v with
  | nil => simp [sumSq]
  | cons a t ih =>
    simp only [sumSq, List.map_cons, List.sum_cons, List.map_map] at *
    rw [show ((fun a => a ^ 2) ∘ fun a => a / c) = fun a => (a / c) ^ 2 from rfl] at ih ⊢
    rw [ih, div_pow, div_add_div_same]

theorem sumSq_normalizeEps (v : Vec) :
    sumSq (normalizeEps v) = sumSq v / (l2norm v + eps) ^ 2 :=
  sumSq_map_div v _

/-- Norm of the epsilon-normalized vector: `‖v‖ / (‖v‖ + ε)`. -/
theorem l2norm_normalizeEps (v : Vec) :
    l2norm (normalizeEps v) = l2norm v / (l2norm v + eps) := by
  have hpos := l2norm_add_eps_pos v
  have h1 : l2norm (normalizeEps v) = Real.sqrt (sumSq v / (l2norm v + eps) ^ 2) := by
    show Real.sqrt (sumSq (normalizeEps v)) = _
    rw [sumSq_normalizeEps]
  rw [h1, Real.sqrt_div (sumSq_nonneg v) _, Real.sqrt_sq (le_of_lt hpos)]
  rfl

theorem sumSq_replicate_zero (n : ℕ) : sumSq (List.replicate n (0 : ℝ)) = 0 := by
  induction n with
  | zero => simp [sumSq]
  | succ k ih => simp only [sumSq, List.replicate_succ, List.map_cons, List.sum_cons] at *; simp [ih]

/-- The sklearn zero-row guard: a zero vector has cosine similarity 0 with
every vector. -/
theorem cosSim_zero_left (n : ℕ) (q : Vec) :
    cosSim (List.replicate n 0) q = 0 := by
  unfold cosSim
  rw [if_pos]
  left
  rw [l2norm_eq_zero_iff]
  exact sumSq_replicate_zero n

/-! ## Python string primitives

`str.replace`, `str.startswith` and the lexical part of the builtin `float`
are modelled on `List Char` (Lean's `String.replace` etc. do not reduce in the
kernel).  `pyFloat` models `float(s)` on ordinary decimal literals with
optional sign, fraction and exponent; the exotic accepted forms (`inf`, `nan`,
digit-group underscores) are irrelevant to price strings and omitted. -/

/-- `pat` is a leading segment of the second list (`str.startswith`). -/
def leadsWith : List Char → List Char → Bool
  | [], _ => true
  | _ :: _, [] => false
  | a :: pat, b :: l => a = b && leadsWith pat l

/-- Remove `pat` from the front of the list, or fail. -/
def stripLead : List Char → List Char → Option (List Char)
  | [], l => some l
  | _ :: _, [] => none
  | a :: pat, b :: l => if a = b then stripLead pat l else none

/-- Fuel-driven worker for `replaceChars`; the fuel only serves structural
termination and one unit per consumed character always suffices. -/
def replaceCharsGo (old new : List Char) : ℕ → List Char → List Char
  | 0, l => l
  | _ + 1, [] => []
  | fuel + 1, c :: rest =>
    match stripLead old (c :: rest) with
    | some r => new ++ replaceCharsGo old new fuel r
    | none => c :: replaceCharsGo old new fuel rest

/-- Python `str.replace old new` on char lists: replace non-overlapping
occurrences left to right.  (Python's empty-pattern behaviour differs, but the
two patterns used by `safe_float` — `"₹"` and `","` — are nonempty.) -/
def replaceChars (old new l : List Char) : List Char :=
  if old = [] then l else replaceCharsGo old new l.length l

/-- Leading optional sign: returns (isNegative, rest). -/
def splitSign : List Char → Bool × List Char
  | '-' :: rest => (true, rest)
  | '+' :: rest => (false, rest)
  | cs => (false, cs)

/-- Digits to a natural number, most significant first. -/
def digitsToNat (cs : List Char) : ℕ :=
  cs.foldl (fun a c => 10 * a + (c.toNat - 48)) 0

/-- Unsigned mantissa `ddd[.ddd]`; fails when no digit is present.  Returns
the value and the unconsumed remainder. -/
def parseMantissa (cs : List Char) : Option (ℚ × List Char) :=
  let ip := cs.takeWhile Char.isDigit
  let r1 := cs.dropWhile Char.isDigit
  match r1 with
  | '.' :: r2 =>
    let fp := r2.takeWhile Char.isDigit
    let r3 := r2.dropWhile Char.isDigit
    if ip.isEmpty ∧ fp.isEmpty then none
    else some (((digitsToNat ip : ℕ) : ℚ) + ((digitsToNat fp : ℕ) : ℚ) / 10 ^ fp.length, r3)
  | _ => if ip.isEmpty then none else some (((digitsToNat ip : ℕ) : ℚ), r1)

/-- Exponent suffix after `e`/`E`: scales the mantissa by `10^±k`. -/
def parseExpPart (m : ℚ) (cs : List Char) : Option ℚ :=
  let sc := splitSign cs
  let ds := sc.2.takeWhile Char.isDigit
  if ds.isEmpty ∨ ¬(sc.2.dropWhile Char.isDigit).isEmpty then none
  else some (if sc.1 then m / 10 ^ digitsToNat ds else m * 10 ^ digitsToNat ds)

/-- Python builtin `float(s)` on a decimal literal (value modelled exactly in
ℚ rather than rounded to binary64); `none` models the raised `ValueError`. -/
def pyFloat (s : String) : Option ℚ :=
  let cs := (s.data.dropWhile Char.isWhitespace).reverse.dropWhile Char.isWhitespace |>.reverse
  let sc := splitSign cs
  match parseMantissa sc.2 with
  | none => none
  | some (m, r) =>
    let q? : Option ℚ :=
      match r with
      | [] => some m
      | 'e' :: r2 => parseExpPart m r2
      | 'E' :: r2 => parseExpPart m r2
      | _ => none
    q?.map (fun q => if sc.1 then -q else q)

/-- The currency glyph stripped by `safe_float` (main.py line 80). -/
def rupee : String := "₹"

/-- `safe_float` (main.py lines 76–82): `None` stays `None`; otherwise strip
the currency glyph and thousands separators and parse with `float`, returning
`None` on any parse failure.  The index stores prices as strings, so the
`str(x)` call is the identity here. -/
def safe_float (x : Option String) : Option ℚ :=
  match x with
  | none => none
  | some s =>
    pyFloat ⟨replaceChars ",".data [] (replaceChars rupee.data [] s.data)⟩

/-! ## Matcher data model (main.py) -/

/-- A decoded PIL image: its size plus an opaque pixel-content token. -/
structure Img where
  width : ℕ
  height : ℕ
  data : ℕ
deriving DecidableEq

/-- One element of the loaded `products` list (`products.json`); `main.py`
reads it only through `.get("id"/"name"/"category")`, which yields `None` for
a missing key. -/
structure Product where
  id : Option String
  name : Option String
  category : Option String
deriving DecidableEq

/-- One element of the loaded `image_index` list: positional back-reference to
the owning product, file name and stringified price.  `main.py` reads
`entry["product_idx"]` unchecked and the other two fields via `.get`. -/
structure IndexEntry where
  product_idx : ℕ
  file : Option String
  price : Option String
deriving DecidableEq

instance : Inhabited IndexEntry := ⟨⟨0, none, none⟩⟩

/-- The process-wide serving state of `main.py` (lines 23–52) together with its
opaque collaborators.  `decode` is PIL `Image.open` (its `Except.error` carries
the exception text), `rgb` is the pixel effect of `convert("RGB")` (size
preserving), `lanczos` the pixel effect of `resize(..., Image.LANCZOS)` at the
given target size, `encode` the raw `model.encode` output, and `fetch` is
`requests.get` plus `raise_for_status` (error = the `RequestException` text). -/
structure Ctx where
  products : List Product
  product_embeddings : List Vec
  image_embeddings : List Vec
  image_index : List IndexEntry
  max_width : ℕ
  decode : List ℕ → Except String Img
  rgb : ℕ → ℕ
  lanczos : Img → ℕ → ℕ → ℕ
  encode : Img → Vec
  fetch : String → Except String (List ℕ)

/-- The form parameters of `POST /match` (main.py lines 97–104).  Floats are
modelled as exact rationals; `top_k` is an `int` form field. -/
structure MatchReq where
  file : Option (List ℕ)
  image_url : Option String
  top_k : ℤ
  threshold : ℚ
  price_min : Option ℚ
  price_max : Option ℚ

/-- `fastapi.HTTPException(status_code, detail)`. -/
structure HErr where
  status : ℕ
  detail : String
deriving DecidableEq

/-- One element of a result's `images` list (main.py lines 165–169). -/
structure ImageEntry where
  file : String
  price : Option ℚ
  score : ℝ

/-- One element of `results` (main.py lines 182–190). -/
structure ProductResult where
  id : Option String
  name : Option String
  category : Option String
  score : ℝ
  min_price : Option ℚ
  max_price : Option ℚ
  images : List ImageEntry

instance : Inhabited ProductResult := ⟨⟨none, none, none, 0, none, none, []⟩⟩

/-! ## Matcher helpers (main.py lines 57–91) -/

/-- `convert("RGB")`: pixel data transformed, size unchanged. -/
def convertRGB (ctx : Ctx) (i : Img) : Img := ⟨i.width, i.height, ctx.rgb i.data⟩

/-- `pil_open_and_normalize` (main.py lines 57–64): decode, convert to RGB,
and downscale to `max_width` if wider.  Python computes the new height as
`int(max_width * h / w)`, i.e. the truncated (floored) quotient, which for
these positive operands is `ℕ` division. -/
def pil_open_and_normalize (ctx : Ctx) (img_bytes : List ℕ) : Except String Img :=
  match ctx.decode img_bytes with
  | .error e => .error e
  | .ok img0 =>
    let img := convertRGB ctx img0
    if ctx.max_width < img.width then
      let new_h := ctx.max_width * img.height / img.width
      .ok ⟨ctx.max_width, new_h, ctx.lanczos img ctx.max_width new_h⟩
    else
      .ok img

/-- `img_to_embedding` (main.py lines 66–70): raw encoder output, then the
epsilon-guarded L2 normalization (the `float32` cast is identity here). -/
noncomputable def img_to_embedding (ctx : Ctx) (img : Img) : Vec :=
  normalizeEps (ctx.encode img)

/-- `img_bytes_to_emb` (main.py lines 72–74). -/
noncomputable def img_bytes_to_emb (ctx : Ctx) (img_bytes : List ℕ) : Except String Vec :=
  (pil_open_and_normalize ctx img_bytes).map (img_to_embedding ctx)

/-- `_image_url_out` (main.py lines 84–91). -/
def image_url_out (file_name : String) : String :=
  if file_name = "" then ""
  else if leadsWith "http://".data file_name.data ∨ leadsWith "https://".data file_name.data then
    file_name
  else
    "/static/" ++ file_name

/-! ## The `/match` endpoint (main.py lines 96–202) -/

/-- Step 1 of `match` (main.py lines 106–121): obtain the query bytes.  The
returned `Bool` records whether the remote fetch was invoked.  A present
upload (`if file:`) wins even when both sources are given; an empty `image_url`
string is falsy in Python and falls through to the "No image provided" error. -/
def obtainBytes (ctx : Ctx) (req : MatchReq) : Except HErr (List ℕ × Bool) :=
  match req.file with
  | some content =>
    if content = [] then .error ⟨400, "Uploaded file is empty"⟩
    else .ok (content, false)
  | none =>
    match req.image_url with
    | some url =>
      if url = "" then .error ⟨400, "No image provided (send file or image_url)"⟩
      else
        match ctx.fetch url with
        | .ok content =>
          if content = [] then .error ⟨400, "Downloaded image is empty"⟩
          else .ok (content, true)
        | .error e => .error ⟨400, "Failed to download image_url: " ++ e⟩
    | none => .error ⟨400, "No image provided (send file or image_url)"⟩

/-- The value comparison `np.argsort` sorts by: index `i` may precede `j`
when `v[i] ≤ v[j]`.  numpy compares only the values; the relative order of
tied indices is an artifact of the sorting algorithm and is not guaranteed by
the program (the default `kind='quicksort'` introsort is documented as not
stable). -/
def valLe (v : List ℝ) (i j : ℕ) : Prop :=
  v.getD i 0 ≤ v.getD j 0

noncomputable instance valLeDec (v : List ℝ) : DecidableRel (valLe v) :=
  fun _ _ => Classical.propDecidable _

/-- `np.argsort sims` (ascending): indices sorted by value only, here via
insertion sort.  Like numpy's introsort, this fixes *some* concrete tie
behaviour — a function model must — but no theorem below relies on a tie
order: they use only that the result is a permutation of `range n` sorted by
value.  (On the ≤2-element ranges of the concrete runs in this file, numpy's
introsort also degrades to insertion sort, so the traced outputs coincide
with numpy's actual ones.) -/
noncomputable def argsortAsc (v : List ℝ) : List ℕ :=
  List.insertionSort (valLe v) (List.range v.length)

/-- `sims.argsort()[::-1]` (main.py line 133). -/
noncomputable def argsortDesc (v : List ℝ) : List ℕ := (argsortAsc v).reverse

/-- Skip predicate of the per-image price filter (main.py lines 153–156): an
image is dropped iff the bound is given, the price is known, and the price
falls outside the bound. -/
def priceSkip (pmin pmax p : Option ℚ) : Bool :=
  (match pmin, p with
   | some m, some pp => decide (pp < m)
   | _, _ => false) ||
  (match pmax, p with
   | some m, some pp => decide (m < pp)
   | _, _ => false)

/-- The per-image loop body (main.py lines 148–169) over the candidate index
list: parse the price, apply the price filter, and compute the image-level
similarity with fallback to the product score when `image_embeddings[img_idx]`
cannot be used (the `try/except` catches the out-of-range and shape-mismatch
errors numpy would raise). -/
noncomputable def imageEntriesFor (ctx : Ctx) (req : MatchReq) (q_emb : Vec)
    (prod_score : ℝ) (candidate_idxs : List ℕ) : List ImageEntry :=
  candidate_idxs.filterMap fun img_idx =>
    let entry := ctx.image_index.getD img_idx default
    let p_price := safe_float entry.price
    if priceSkip req.price_min req.price_max p_price then none
    else
      let img_sim : ℝ :=
        match ctx.image_embeddings.get? img_idx with
        | some row => if row.length = q_emb.length then cosSim q_emb row else prod_score
        | none => prod_score
      some ⟨image_url_out (entry.file.getD ""), p_price, img_sim⟩

/-- The descending-by-score preorder used on a product's image entries. -/
def scoreGe (a b : ImageEntry) : Prop := b.score ≤ a.score

noncomputable instance scoreGeDec : DecidableRel scoreGe :=
  fun _ _ => Classical.propDecidable _

/-- `image_entries.sort(key=..., reverse=True)` (main.py line 175): Python's
stable descending sort by score (ties keep their original order). -/
noncomputable def sortImagesDesc (l : List ImageEntry) : List ImageEntry :=
  List.insertionSort scoreGe l

/-- `candidate_idxs` (main.py line 143): positions of the index entries that
back-reference catalog position `p_idx`. -/
def candidatesFor (ctx : Ctx) (p_idx : ℕ) : List ℕ :=
  (ctx.image_index.enum.filter (fun pr => pr.2.product_idx = p_idx)).map (fun pr => pr.1)

/-- The ranked-candidate loop (main.py lines 137–193), written as recursion
over the ranked index list; `n` is `len(results)` so far, and each produced
pair also records the catalog position `p_idx` the appended dict was built
from.  `products[p_idx]` out of range raises `IndexError`, which the outer
handler turns into a 500 response. -/
noncomputable def collectE (ctx : Ctx) (req : MatchReq) (q_emb : Vec)
    (sims : List ℝ) : ℕ → List ℕ → Except String (List (ℕ × ProductResult))
  | _, [] => .ok []
  | n, p_idx :: rest =>
    let prod_score := sims.getD p_idx 0
    if prod_score < (req.threshold : ℝ) then collectE ctx req q_emb sims n rest
    else
      let candidate_idxs := candidatesFor ctx p_idx
      if candidate_idxs = [] then collectE ctx req q_emb sims n rest
      else
        let image_entries := imageEntriesFor ctx req q_emb prod_score candidate_idxs
        if image_entries.isEmpty then collectE ctx req q_emb sims n rest
        else
          let sorted := sortImagesDesc image_entries
          let prices := sorted.filterMap (fun i => i.price)
          match ctx.products.get? p_idx with
          | none => .error "IndexError: list index out of range"
          | some prod =>
            let r : ProductResult :=
              ⟨prod.id, prod.name, prod.category, prod_score, prices.min?, prices.max?, sorted⟩
            if req.top_k ≤ ((n + 1 : ℕ) : ℤ) then .ok [(p_idx, r)]
            else (collectE ctx req q_emb sims (n + 1) rest).map (fun tl => (p_idx, r) :: tl)

/-- `cosine_similarity(q_emb, product_embeddings)[0]` (main.py line 132): one
product-level score per product-embedding row. -/
noncomputable def simsOf (ctx : Ctx) (q_emb : Vec) : List ℝ :=
  ctx.product_embeddings.map (fun row => cosSim q_emb row)

/-- `/match` (main.py lines 96–202), instrumented to keep the catalog position
each result was built from.  Client-side failures are the 400 `HTTPException`s
of lines 106–129; an exception escaping the ranking loop is the 500 response of
lines 199–202. -/
noncomputable def matchPairs (ctx : Ctx) (req : MatchReq) :
    Except HErr (List (ℕ × ProductResult)) :=
  match obtainBytes ctx req with
  | .error e => .error e
  | .ok (content, _) =>
    match img_bytes_to_emb ctx content with
    | .error e => .error ⟨400, "Image decoding/encoding failed: " ++ e⟩
    | .ok q_emb =>
      let sims := simsOf ctx q_emb
      let ranked := argsortDesc sims
      match collectE ctx req q_emb sims 0 ranked with
      | .error e => .error ⟨500, e⟩
      | .ok pairs => .ok pairs

/-- The `query_matches` list of the `/match` response. -/
noncomputable def matchRun (ctx : Ctx) (req : MatchReq) :
    Except HErr (List ProductResult) :=
  (matchPairs ctx req).map (fun l => l.map (fun pr => pr.2))

/-! ## Offline index builder (precompute_embeddings_images.py) -/

/-- A JSON price value: `null`, a string, or a number (integers suffice for
the stringification modelled here). -/
inductive JPrice
  | null
  | str (s : String)
  | int (z : ℤ)
deriving DecidableEq

/-- Python `str` on a price value (`str(None) = "None"`). -/
def pyStr : JPrice → String
  | .null => "None"
  | .str s => s
  | .int z => toString z

/-- An element of a product's `images` list: either the expected dict
`{"file": ..., "price": ...}` or a bare file-name string (precompute lines
36–42). -/
inductive ImgRec
  | dict (file : String) (price : JPrice)
  | bare (file : String)
deriving DecidableEq

/-- A catalog product as the builder reads it: `id` (used only in a warning),
a product-level `price` fallback (`prod.get("price", None)`) and the image
records. -/
structure BProduct where
  id : Option String
  price : JPrice
  images : List ImgRec

/-- The builder's collaborators: `exists_file f` is
`os.path.exists(os.path.join(DATA_DIR, f))`, `encode_file f` is
`compute_img_emb(model, path)` — PIL open + RGB convert + raw `model.encode` —
with `none` for a raised exception, and `dim` is
`model.get_sentence_embedding_dimension()`. -/
structure BuildCtx where
  exists_file : String → Bool
  encode_file : String → Option Vec
  dim : ℕ

/-- File name and price of an image record (precompute lines 36–42): a bare
string falls back to the product-level price. -/
def imgFields (prod : BProduct) : ImgRec → String × JPrice
  | .dict f pr => (f, pr)
  | .bare f => (f, prod.price)

/-- The per-image loop of the builder (precompute lines 34–56) for one
product: each image whose file exists and embeds successfully contributes its
raw embedding together with its `image_index` entry
`{"product_idx": p_idx, "file": fname, "price": str(price)}`; missing or
failing images are skipped with a warning. -/
def validImages (ctx : BuildCtx) (p_idx : ℕ) (prod : BProduct) :
    List (Vec × IndexEntry) :=
  prod.images.filterMap fun im =>
    let fp := imgFields prod im
    if ctx.exists_file fp.1 then
      (ctx.encode_file fp.1).map
        (fun emb => (emb, ⟨p_idx, some fp.1, some (pyStr fp.2)⟩))
    else none

/-- Componentwise vector sum (for `np.mean(np.stack(...), axis=0)`). -/
noncomputable def vadd (x y : Vec) : Vec := List.zipWith (· + ·) x y

/-- Sum of a nonempty family of equal-length vectors. -/
noncomputable def vsum : List Vec → Vec
  | [] => []
  | v :: vs => vs.foldl vadd v

/-- `np.mean(np.stack(vs, axis=0), axis=0)`: the componentwise arithmetic
mean.  (`np.stack` requires the vectors to share the model dimension, which
`model.encode` guarantees.) -/
noncomputable def vmean (vs : List Vec) : Vec :=
  (vsum vs).map (fun a => a / (vs.length : ℝ))

/-- The product-embedding row (precompute lines 58–67): the zero-vector
sentinel when no image survived, otherwise the epsilon-guarded normalization
of the mean of the raw per-image embeddings. -/
noncomputable def productRow (ctx : BuildCtx) (p_idx : ℕ) (prod : BProduct) : Vec :=
  let valid := validImages ctx p_idx prod
  if valid.isEmpty then List.replicate ctx.dim 0
  else normalizeEps (vmean (valid.map (fun pr => pr.1)))

/-- `main()` of the builder (precompute lines 23–75): the three persisted
artifacts `(product_embeddings, image_embeddings, image_index)` produced in
catalog order. -/
noncomputable def buildArtifacts (ctx : BuildCtx) (prods : List BProduct) :
    List Vec × List Vec × List IndexEntry :=
  ((prods.enum.map fun pr => productRow ctx pr.1 pr.2),
   (prods.enum.map fun pr => (validImages ctx pr.1 pr.2).map (fun q => q.1)).flatten,
   (prods.enum.map fun pr => (validImages ctx pr.1 pr.2).map (fun q => q.2)).flatten)

/-! ## Structural lemmas about the ranking permutation -/

instance valLeTotal (v : List ℝ) : IsTotal ℕ (valLe v) :=
  ⟨fun i j => le_total (v.getD i 0) (v.getD j 0)⟩

instance valLeTrans (v : List ℝ) : IsTrans ℕ (valLe v) :=
  ⟨fun _ _ _ hab hbc => le_trans hab hbc⟩

theorem argsortAsc_sorted (v : List ℝ) : List.Sorted (valLe v) (argsortAsc v) :=
  List.sorted_insertionSort (valLe v) (List.range v.length)

theorem argsortAsc_perm (v : List ℝ) :
    List.Perm (argsortAsc v) (List.range v.length) :=
  List.perm_insertionSort (valLe v) (List.range v.length)

/-- Along `argsortDesc v`, values are non-increasing: every earlier index
carries a value at least as large as every later one.  (This is the whole
ordering contract of `argsort()[::-1]`; nothing is guaranteed about the
relative order of tied indices.) -/
theorem argsortDesc_pairwise (v : List ℝ) :
    (argsortDesc v).Pairwise (fun a b => valLe v b a) := by
  unfold argsortDesc
  rw [List.pairwise_reverse]
  exact argsortAsc_sorted v

theorem argsortDesc_nodup (v : List ℝ) : (argsortDesc v).Nodup := by
  unfold argsortDesc
  rw [List.nodup_reverse]
  exact ((argsortAsc_perm v).nodup_iff).mpr (List.nodup_range _)

theorem argsortDesc_perm (v : List ℝ) :
    List.Perm (argsortDesc v) (List.range v.length) :=
  (List.reverse_perm (argsortAsc v)).trans (argsortAsc_perm v)

/-! ## Structural lemmas about the ranked-candidate loop -/

theorem collectE_picks_sublist (ctx : Ctx) (req : MatchReq) (q_emb : Vec) (sims : List ℝ) :
    ∀ (l : List ℕ) (n : ℕ) (res : List (ℕ × ProductResult)),
      collectE ctx req q_emb sims n l = .ok res →
      List.Sublist (res.map Prod.fst) l := by
  intro l
  induction l with
  | nil =>
    intro n res h
    simp only [collectE] at h
    cases h
    simp
  | cons p rest ih =>
    intro n res h
    simp only [collectE] at h
    by_cases h1 : sims.getD p 0 < (req.threshold : ℝ)
    · rw [if_pos h1] at h
      exact (ih n res h).cons p
    · rw [if_neg h1] at h
      by_cases h2 : candidatesFor ctx p = []
      · rw [if_pos h2] at h
        exact (ih n res h).cons p
      · rw [if_neg h2] at h
        by_cases h3 : (imageEntriesFor ctx req q_emb (sims.getD p 0) (candidatesFor ctx p)).isEmpty
        · rw [if_pos h3] at h
          exact (ih n res h).cons p
        · rw [if_neg h3] at h
          cases hgp : ctx.products.get? p with
          | none => rw [hgp] at h; cases h
          | some prod =>
            rw [hgp] at h
            dsimp only at h
            by_cases h4 : req.top_k ≤ ((n + 1 : ℕ) : ℤ)
            · rw [if_pos h4] at h
              cases h
              simp only [List.map_cons, List.map_nil]
              exact List.Sublist.cons₂ p (List.nil_sublist rest)
            · rw [if_neg h4] at h
              cases hrec : collectE ctx req q_emb sims (n + 1) rest with
              | error e => rw [hrec] at h; cases h
              | ok tl =>
                rw [hrec] at h
                cases h
                simpa using List.Sublist.cons₂ p (ih (n + 1) tl hrec)

theorem collectE_mem_spec (ctx : Ctx) (req : MatchReq) (q_emb : Vec) (sims : List ℝ) :
    ∀ (l : List ℕ) (n : ℕ) (res : List (ℕ × ProductResult)),
      collectE ctx req q_emb sims n l = .ok res →
      ∀ pr ∈ res,
        pr.2.score = sims.getD pr.1 0 ∧
        pr.2.images =
          sortImagesDesc
            (imageEntriesFor ctx req q_emb (sims.getD pr.1 0) (candidatesFor ctx pr.1)) := by
  intro l
  induction l with
  | nil =>
    intro n res h
    simp only [collectE] at h
    cases h
    intro pr hpr
    cases hpr
  | cons p rest ih =>
    intro n res h
    simp only [collectE] at h
    by_cases h1 : sims.getD p 0 < (req.threshold : ℝ)
    · rw [if_pos h1] at h; exact ih n res h
    · rw [if_neg h1] at h
      by_cases h2 : candidatesFor ctx p = []
      · rw [if_pos h2] at h; exact ih n res h
      · rw [if_neg h2] at h
        by_cases h3 : (imageEntriesFor ctx req q_emb (sims.getD p 0) (candidatesFor ctx p)).isEmpty
        · rw [if_pos h3] at h; exact ih n res h
        · rw [if_neg h3] at h
          cases hgp : ctx.products.get? p with
          | none => rw [hgp] at h; cases h
          | some prod =>
            rw [hgp] at h
            dsimp only at h
            by_cases h4 : req.top_k ≤ ((n + 1 : ℕ) : ℤ)
            · rw [if_pos h4] at h
              cases h
              intro pr hpr
              rcases List.mem_singleton.mp hpr with rfl
              exact ⟨rfl, rfl⟩
            · rw [if_neg h4] at h
              cases hrec : collectE ctx req q_emb sims (n + 1) rest with
              | error e => rw [hrec] at h; cases h
              | ok tl =>
                rw [hrec] at h
                cases h
                intro pr hpr
                rcases List.mem_cons.mp hpr with rfl | hmem
                · exact ⟨rfl, rfl⟩
                · exact ih (n + 1) tl hrec pr hmem

/-- The break check after each append bounds the number of collected results:
starting strictly below `max top_k 1`, the loop never exceeds it. -/
theorem collectE_length (ctx : Ctx) (req : MatchReq) (q_emb : Vec) (sims : List ℝ) :
    ∀ (l : List ℕ) (n : ℕ) (res : List (ℕ × ProductResult)),
      collectE ctx req q_emb sims n l = .ok res →
      (n : ℤ) < max req.top_k 1 →
      (n : ℤ) + res.length ≤ max req.top_k 1 := by
  intro l
  induction l with
  | nil =>
    intro n res h hn
    simp only [collectE] at h
    cases h
    simp
    omega
  | cons p rest ih =>
    intro n res h hn
    simp only [collectE] at h
    by_cases h1 : sims.getD p 0 < (req.threshold : ℝ)
    · rw [if_pos h1] at h; exact ih n res h hn
    · rw [if_neg h1] at h
      by_cases h2 : candidatesFor ctx p = []
      · rw [if_pos h2] at h; exact ih n res h hn
      · rw [if_neg h2] at h
        by_cases h3 : (imageEntriesFor ctx req q_emb (sims.getD p 0) (candidatesFor ctx p)).isEmpty
        · rw [if_pos h3] at h; exact ih n res h hn
        · rw [if_neg h3] at h
          cases hgp : ctx.products.get? p with
          | none => rw [hgp] at h; cases h
          | some prod =>
            rw [hgp] at h
            dsimp only at h
            by_cases h4 : req.top_k ≤ ((n + 1 : ℕ) : ℤ)
            · rw [if_pos h4] at h
              cases h
              simp
              omega
            · rw [if_neg h4] at h
              cases hrec : collectE ctx req q_emb sims (n + 1) rest with
              | error e => rw [hrec] at h; cases h
              | ok tl =>
                rw [hrec] at h
                cases h
                have hn1 : ((n + 1 : ℕ) : ℤ) < max req.top_k 1 := by
                  push_neg at h4
                  have : ((n + 1 : ℕ) : ℤ) < req.top_k := by exact_mod_cast h4
                  omega
                have := ih (n + 1) tl hrec hn1
                simp only [List.length_cons]
                push_cast at this ⊢
                omega

/-- A catalog position with no index entry is never picked: the loop skips it
at the `candidate_idxs` emptiness check. -/
theorem collectE_not_mem (ctx : Ctx) (req : MatchReq) (q_emb : Vec) (sims : List ℝ)
    (p0 : ℕ) (hc : candidatesFor ctx p0 = []) :
    ∀ (l : List ℕ) (n : ℕ) (res : List (ℕ × ProductResult)),
      collectE ctx req q_emb sims n l = .ok res →
      ∀ pr ∈ res, pr.1 ≠ p0 := by
  intro l
  induction l with
  | nil =>
    intro n res h pr hpr
    simp only [collectE] at h
    cases h
    cases hpr
  | cons p rest ih =>
    intro n res h
    simp only [collectE] at h
    by_cases h1 : sims.getD p 0 < (req.threshold : ℝ)
    · rw [if_pos h1] at h; exact ih n res h
    · rw [if_neg h1] at h
      by_cases h2 : candidatesFor ctx p = []
      · rw [if_pos h2] at h; exact ih n res h
      · rw [if_neg h2] at h
        have hp0 : p ≠ p0 := fun hpp => h2 (hpp ▸ hc)
        by_cases h3 : (imageEntriesFor ctx req q_emb (sims.getD p 0) (candidatesFor ctx p)).isEmpty
        · rw [if_pos h3] at h; exact ih n res h
        · rw [if_neg h3] at h
          cases hgp : ctx.products.get? p with
          | none => rw [hgp] at h; cases h
          | some prod =>
            rw [hgp] at h
            dsimp only at h
            by_cases h4 : req.top_k ≤ ((n + 1 : ℕ) : ℤ)
            · rw [if_pos h4] at h
              cases h
              intro pr hpr
              rcases List.mem_singleton.mp hpr with rfl
              exact hp0
            · rw [if_neg h4] at h
              cases hrec : collectE ctx req q_emb sims (n + 1) rest with
              | error e => rw [hrec] at h; cases h
              | ok tl =>
                rw [hrec] at h
                cases h
                intro pr hpr
                rcases List.mem_cons.mp hpr with rfl | hmem
                · exact hp0
                · exact ih (n + 1) tl hrec pr hmem

/-- The price filter never fires on an unknown (unparsable) price. -/
theorem priceSkip_none (pmin pmax : Option ℚ) : priceSkip pmin pmax none = false := by
  unfold priceSkip
  cases pmin <;> cases pmax <;> rfl

/-- A surviving image entry carries the parsed price it was filtered with:
known prices respect both given bounds. -/
theorem mem_imageEntriesFor (ctx : Ctx) (req : MatchReq) (q_emb : Vec)
    (prod_score : ℝ) (idxs : List ℕ) (e : ImageEntry)
    (he : e ∈ imageEntriesFor ctx req q_emb prod_score idxs) :
    ∀ p, e.price = some p →
      (∀ m, req.price_min = some m → m ≤ p) ∧ (∀ M, req.price_max = some M → p ≤ M) := by
  unfold imageEntriesFor at he
  rcases List.mem_filterMap.mp he with ⟨i, _, hbuild⟩
  by_cases hskip : priceSkip req.price_min req.price_max
      (safe_float (ctx.image_index.getD i default).price)
  · rw [if_pos hskip] at hbuild
    cases hbuild
  · rw [if_neg hskip] at hbuild
    have hprice : e.price = safe_float (ctx.image_index.getD i default).price := by
      cases hbuild
      rfl
    intro p hp
    rw [hp] at hprice
    unfold priceSkip at hskip
    constructor
    · intro m hm
      rw [hm, ← hprice] at hskip
      simp only [Bool.or_eq_true, not_or, decide_eq_true_eq, not_lt] at hskip
      exact hskip.1
    · intro M hM
      rw [hM, ← hprice] at hskip
      simp only [Bool.or_eq_true, not_or, decide_eq_true_eq, not_lt] at hskip
      exact hskip.2

/-- Successful runs of `/match` decompose into the pipeline stages. -/
theorem matchPairs_ok_inv (ctx : Ctx) (req : MatchReq)
    (pairs : List (ℕ × ProductResult)) (h : matchPairs ctx req = .ok pairs) :
    ∃ content q_emb,
      obtainBytes ctx req = .ok content ∧
      img_bytes_to_emb ctx content.1 = .ok q_emb ∧
      collectE ctx req q_emb (simsOf ctx q_emb) 0 (argsortDesc (simsOf ctx q_emb)) =
        .ok pairs := by
  unfold matchPairs at h
  cases hob : obtainBytes ctx req with
  | error e => rw [hob] at h; cases h
  | ok content =>
    rcases content with ⟨bytes, flag⟩
    rw [hob] at h
    dsimp only at h
    cases hemb : img_bytes_to_emb ctx bytes with
    | error e =>
      rw [hemb] at h
      cases h
    | ok q_emb =>
      rw [hemb] at h
      dsimp only at h
      cases hcol : collectE ctx req q_emb (simsOf ctx q_emb) 0
          (argsortDesc (simsOf ctx q_emb)) with
      | error e => rw [hcol] at h; cases h
      | ok pairs2 =>
        rw [hcol] at h
        cases h
        exact ⟨(bytes, flag), q_emb, rfl, hemb, hcol⟩

/-- Successful `matchRun` output is the instrumented pair list sans positions. -/
theorem matchRun_ok_inv (ctx : Ctx) (req : MatchReq) (out : List ProductResult)
    (h : matchRun ctx req = .ok out) :
    ∃ pairs, matchPairs ctx req = .ok pairs ∧ out = pairs.map (fun pr => pr.2) := by
  unfold matchRun at h
  cases hp : matchPairs ctx req with
  | error e => rw [hp] at h; cases h
  | ok pairs =>
    rw [hp] at h
    cases h
    exact ⟨pairs, rfl, rfl⟩

/-! ## Concrete fixtures

A two-product catalog whose artifacts contain only zero vectors.  Zero
embeddings make every cosine similarity 0 through the sklearn zero-norm guard,
which keeps the concrete runs free of square roots while exercising every
branch of the ranking loop (and producing a two-way score tie). -/

/-- Generic helper: `cosSim` vanishes whenever the left norm does. -/
theorem cosSim_left_zero (x y : Vec) (h : l2norm x = 0) : cosSim x y = 0 := by
  unfold cosSim
  rw [if_pos (Or.inl h)]

theorem l2norm_single_zero : l2norm [(0 : ℝ)] = 0 := by
  rw [l2norm_eq_zero_iff]
  simp [sumSq]

theorem cosSim_single_zero (y : Vec) : cosSim [(0 : ℝ)] y = 0 :=
  cosSim_left_zero _ y l2norm_single_zero

def prodA1 : Product := ⟨some "p1", some "Product One", some "catA"⟩

def prodA2 : Product := ⟨some "p2", some "Product Two", some "catA"⟩

def entA1 : IndexEntry := ⟨0, some "a.jpg", some "100"⟩

def entA2 : IndexEntry := ⟨1, some "b.jpg", some "200"⟩

def imgA : Img := ⟨10, 10, 0⟩

/-- Serving state: two products, one image each, all-zero embedding rows; the
decoder always yields the small image `imgA` and the encoder returns the zero
vector. -/
noncomputable def ctxA : Ctx :=
  ⟨[prodA1, prodA2], [[0], [0]], [[0], [0]], [entA1, entA2], 1024,
    fun _ => .ok imgA, id, fun _ _ _ => 0, fun _ => [0],
    fun _ => .error "connection refused"⟩

/-- A plain request: one-byte upload, default parameters. -/
def reqA : MatchReq := ⟨some [1], none, 6, 0, none, none⟩

theorem obtainBytesA : obtainBytes ctxA reqA = .ok ([1], false) := rfl

theorem embA : img_bytes_to_emb ctxA [1] = .ok [(0 : ℝ)] := by
  have hpil : pil_open_and_normalize ctxA [1] = .ok imgA := rfl
  unfold img_bytes_to_emb
  rw [hpil]
  show Except.ok (img_to_embedding ctxA imgA) = _
  unfold img_to_embedding
  show Except.ok (normalizeEps [(0 : ℝ)]) = _
  unfold normalizeEps
  norm_num

theorem simsA : simsOf ctxA [(0 : ℝ)] = [0, 0] := by
  show [cosSim [(0 : ℝ)] [0], cosSim [(0 : ℝ)] [0]] = [0, 0]
  rw [cosSim_single_zero]

theorem argsortDescA : argsortDesc [(0 : ℝ), 0] = [1, 0] := by
  have hle : valLe [(0 : ℝ), 0] 0 1 := le_refl (0 : ℝ)
  have hr : List.range ([(0 : ℝ), 0] : List ℝ).length = [0, 1] := rfl
  unfold argsortDesc argsortAsc
  rw [hr]
  show (List.orderedInsert (valLe [(0 : ℝ), 0]) 0
    (List.orderedInsert (valLe [(0 : ℝ), 0]) 1 [])).reverse = [1, 0]
  rw [List.orderedInsert_nil]
  show (if valLe [(0 : ℝ), 0] 0 1 then [0, 1]
    else 1 :: List.orderedInsert (valLe [(0 : ℝ), 0]) 0 []).reverse = [1, 0]
  rw [if_pos hle]
  rfl

def entryOutA1 : ImageEntry := ⟨"/static/a.jpg", some 100, 0⟩

def entryOutA2 : ImageEntry := ⟨"/static/b.jpg", some 200, 0⟩

def resA1 : ProductResult :=
  ⟨some "p1", some "Product One", some "catA", 0, some 100, some 100, [entryOutA1]⟩

def resA2 : ProductResult :=
  ⟨some "p2", some "Product Two", some "catA", 0, some 200, some 200, [entryOutA2]⟩

theorem candA1 : candidatesFor ctxA 1 = [1] := rfl

theorem candA0 : candidatesFor ctxA 0 = [0] := rfl

theorem entriesA2 : imageEntriesFor ctxA reqA [(0 : ℝ)] 0 [1] = [entryOutA2] := by
  have h1 : imageEntriesFor ctxA reqA [(0 : ℝ)] 0 [1] =
      [⟨"/static/b.jpg", some 200, cosSim [(0 : ℝ)] [0]⟩] := rfl
  rw [h1, cosSim_single_zero]
  rfl

theorem entriesA1 : imageEntriesFor ctxA reqA [(0 : ℝ)] 0 [0] = [entryOutA1] := by
  have h1 : imageEntriesFor ctxA reqA [(0 : ℝ)] 0 [0] =
      [⟨"/static/a.jpg", some 100, cosSim [(0 : ℝ)] [0]⟩] := rfl
  rw [h1, cosSim_single_zero]
  rfl

theorem sortSingle (e : ImageEntry) : sortImagesDesc [e] = [e] := rfl

theorem collectA :
    collectE ctxA reqA [(0 : ℝ)] [0, 0] 0 [1, 0] = .ok [(1, resA2), (0, resA1)] := by
  have hmin2 : ([200] : List ℚ).min? = some 200 := rfl
  have hmax2 : ([200] : List ℚ).max? = some 200 := rfl
  have hmin1 : ([100] : List ℚ).min? = some 100 := rfl
  have hmax1 : ([100] : List ℚ).max? = some 100 := rfl
  have hprod1 : (ctxA.products)[1]? = some prodA2 := rfl
  have hprod0 : (ctxA.products)[0]? = some prodA1 := rfl
  have hg1 : ([0, 0] : List ℝ).getD 1 0 = 0 := rfl
  have hg0 : ([0, 0] : List ℝ).getD 0 0 = 0 := rfl
  have hthr : ((reqA.threshold : ℚ) : ℝ) = 0 := by norm_num [reqA]
  have hk : reqA.top_k = 6 := rfl
  norm_num [collectE, candA1, candA0, entriesA2, entriesA1, sortSingle,
    hmin2, hmax2, hmin1, hmax1, hprod1, hprod0, hg1, hg0, hthr, hk]
  rfl

theorem matchPairsA : matchPairs ctxA reqA = .ok [(1, resA2), (0, resA1)] := by
  unfold matchPairs
  rw [obtainBytesA]
  dsimp only
  rw [embA]
  dsimp only
  rw [simsA, argsortDescA, collectA]

theorem matchRunA : matchRun ctxA reqA = .ok [resA2, resA1] := by
  unfold matchRun
  rw [matchPairsA]
  rfl

/-- Same upload, but with `price_min = 150`. -/
def reqB : MatchReq := ⟨some [1], none, 6, 0, some 150, none⟩

/-- Same upload, but with `top_k = 0`. -/
def reqC : MatchReq := ⟨some [1], none, 0, 0, none, none⟩

theorem entriesB2 : imageEntriesFor ctxA reqB [(0 : ℝ)] 0 [1] = [entryOutA2] := by
  have h1 : imageEntriesFor ctxA reqB [(0 : ℝ)] 0 [1] =
      [⟨"/static/b.jpg", some 200, cosSim [(0 : ℝ)] [0]⟩] := rfl
  rw [h1, cosSim_single_zero]
  rfl

theorem entriesB1 : imageEntriesFor ctxA reqB [(0 : ℝ)] 0 [0] = [] := rfl

theorem collectB : collectE ctxA reqB [(0 : ℝ)] [0, 0] 0 [1, 0] = .ok [(1, resA2)] := by
  have hmin2 : ([200] : List ℚ).min? = some 200 := rfl
  have hmax2 : ([200] : List ℚ).max? = some 200 := rfl
  have hprod1 : (ctxA.products)[1]? = some prodA2 := rfl
  have hg1 : ([0, 0] : List ℝ).getD 1 0 = 0 := rfl
  have hg0 : ([0, 0] : List ℝ).getD 0 0 = 0 := rfl
  have hthr : ((reqB.threshold : ℚ) : ℝ) = 0 := by norm_num [reqB]
  have hk : reqB.top_k = 6 := rfl
  norm_num [collectE, candA1, candA0, entriesB2, entriesB1, sortSingle,
    hmin2, hmax2, hprod1, hg1, hg0, hthr, hk]
  rfl

theorem matchPairsB : matchPairs ctxA reqB = .ok [(1, resA2)] := by
  have hob : obtainBytes ctxA reqB = .ok ([1], false) := rfl
  unfold matchPairs
  rw [hob]
  dsimp only
  rw [embA]
  dsimp only
  rw [simsA, argsortDescA, collectB]

theorem matchRunB : matchRun ctxA reqB = .ok [resA2] := by
  unfold matchRun
  rw [matchPairsB]
  rfl

theorem entriesC2 : imageEntriesFor ctxA reqC [(0 : ℝ)] 0 [1] = [entryOutA2] := by
  have h1 : imageEntriesFor ctxA reqC [(0 : ℝ)] 0 [1] =
      [⟨"/static/b.jpg", some 200, cosSim [(0 : ℝ)] [0]⟩] := rfl
  rw [h1, cosSim_single_zero]
  rfl

theorem collectC : collectE ctxA reqC [(0 : ℝ)] [0, 0] 0 [1, 0] = .ok [(1, resA2)] := by
  have hmin2 : ([200] : List ℚ).min? = some 200 := rfl
  have hmax2 : ([200] : List ℚ).max? = some 200 := rfl
  have hprod1 : (ctxA.products)[1]? = some prodA2 := rfl
  have hg1 : ([0, 0] : List ℝ).getD 1 0 = 0 := rfl
  have hthr : ((reqC.threshold : ℚ) : ℝ) = 0 := by norm_num [reqC]
  have hk : reqC.top_k = 0 := rfl
  norm_num [collectE, candA1, entriesC2, sortSingle, hmin2, hmax2, hprod1,
    hg1, hthr, hk]
  rfl

theorem matchPairsC : matchPairs ctxA reqC = .ok [(1, resA2)] := by
  have hob : obtainBytes ctxA reqC = .ok ([1], false) := rfl
  unfold matchPairs
  rw [hob]
  dsimp only
  rw [embA]
  dsimp only
  rw [simsA, argsortDescA, collectC]

theorem matchRunC : matchRun ctxA reqC = .ok [resA2] := by
  unfold matchRun
  rw [matchPairsC]
  rfl

/-! ## Claim theorems -/

/-- Bounded `getD` reads are `get`. -/
theorem getD_eq_get_of_lt {α : Type} [Inhabited α] (l : List α) (i : ℕ)
    (h : i < l.length) : l.getD i default = l.get ⟨i, h⟩ := by
  simp [List.getD_eq_getElem?_getD, List.getElem?_eq_getElem h, List.get_eq_getElem]

/-- Every successful `/match` run is ordered by the reversed argsort: scores
are read off one sims vector, and along the result the picked values are
non-increasing. -/
theorem matchPairs_ordered (ctx : Ctx) (req : MatchReq)
    (pairs : List (ℕ × ProductResult)) (h : matchPairs ctx req = .ok pairs) :
    ∃ v : List ℝ,
      (∀ pr ∈ pairs, pr.2.score = v.getD pr.1 0) ∧
      (pairs.map Prod.fst).Pairwise (fun a b => valLe v b a) := by
  rcases matchPairs_ok_inv ctx req pairs h with ⟨content, q_emb, _, _, hcol⟩
  refine ⟨simsOf ctx q_emb, ?_, ?_⟩
  · intro pr hpr
    exact (collectE_mem_spec ctx req q_emb _ _ _ _ hcol pr hpr).1
  · exact (argsortDesc_pairwise _).sublist (collectE_picks_sublist ctx req q_emb _ _ _ _ hcol)

/-- C1 (amended): the returned products appear in non-increasing order of
product-level score, exactly as claimed.  The tie-breaking half of the claim
is false and replaced by nothing: `np.argsort` (default `kind='quicksort'`,
an introsort) guarantees no order among equal values, and the `[::-1]`
reversal destroys the claimed stability in any case — the counterexample run
shows tied products coming back in reverse catalog order. -/
theorem C1_ranking_sorted (ctx : Ctx) (req : MatchReq) (out : List ProductResult)
    (hrun : matchRun ctx req = .ok out) :
    ∀ i j : ℕ, i ≤ j → j < out.length →
      (out.getD j default).score ≤ (out.getD i default).score := by
  intro i j hij hj
  rcases matchRun_ok_inv ctx req out hrun with ⟨pairs, hp, rfl⟩
  rcases matchPairs_ordered ctx req pairs hp with ⟨v, hscore, hpw⟩
  rcases eq_or_lt_of_le hij with rfl | hlt
  · exact le_refl _
  · have hjp : j < pairs.length := by simpa using hj
    have hip : i < pairs.length := lt_trans hlt hjp
    have hpw2 : pairs.Pairwise (fun a b => valLe v b.1 a.1) :=
      (List.pairwise_map).mp hpw
    have hrel := List.pairwise_iff_get.mp hpw2 ⟨i, hip⟩ ⟨j, hjp⟩ hlt
    have hsi := hscore (pairs.get ⟨i, hip⟩) (pairs.get_mem _ _)
    have hsj := hscore (pairs.get ⟨j, hjp⟩) (pairs.get_mem _ _)
    have hgi : (pairs.map (fun pr => pr.2)).getD i default = (pairs.get ⟨i, hip⟩).2 := by
      rw [getD_eq_get_of_lt _ i (by simpa using hip)]
      simp [List.get_eq_getElem]
    have hgj : (pairs.map (fun pr => pr.2)).getD j default = (pairs.get ⟨j, hjp⟩).2 := by
      rw [getD_eq_get_of_lt _ j (by simpa using hjp)]
      simp [List.get_eq_getElem]
    rw [hgi, hgj, hsi, hsj]
    exact hrel

/-- C1 witness: the two-product zero-embedding run (a genuine two-way tie)
instantiates the amended ranking theorem. -/
theorem C1_ranking_sorted_witness :
    matchRun ctxA reqA = .ok [resA2, resA1] ∧
    (([resA2, resA1] : List ProductResult).getD 1 default).score ≤
      (([resA2, resA1] : List ProductResult).getD 0 default).score := by
  refine ⟨matchRunA, ?_⟩
  exact C1_ranking_sorted ctxA reqA [resA2, resA1] matchRunA
    0 1 (by norm_num) (by norm_num)

/-- C1 counterexample: with two tied products the response lists catalog
position 1 (`"p2"`) before catalog position 0 (`"p1"`) — the claimed
"ties appear in original catalog order" is false. -/
theorem C1_counterexample :
    matchRun ctxA reqA = .ok [resA2, resA1] ∧
    resA2.score = resA1.score ∧
    resA2.id = some "p2" ∧
    resA1.id = some "p1" ∧
    ctxA.products.get? 0 = some prodA1 ∧
    ctxA.products.get? 1 = some prodA2 ∧
    prodA1.id = some "p1" ∧
    prodA2.id = some "p2" :=
  ⟨matchRunA, rfl, rfl, rfl, rfl, rfl, rfl, rfl⟩

/-- C5 (amended): a successful `/match` returns at most `max top_k 1`
products.  The break `len(results) >= int(top_k)` is checked only *after* an
append, so `top_k ≤ 0` still lets one product through; for `top_k ≥ 1` the
bound is `top_k` as claimed, and collection stops as soon as `top_k` results
have been appended. -/
theorem C5_topk_bound (ctx : Ctx) (req : MatchReq) (out : List ProductResult)
    (hrun : matchRun ctx req = .ok out) :
    (out.length : ℤ) ≤ max req.top_k 1 := by
  rcases matchRun_ok_inv ctx req out hrun with ⟨pairs, hp, rfl⟩
  rcases matchPairs_ok_inv ctx req pairs hp with ⟨c, q, _, _, hcol⟩
  have h0 : ((0 : ℕ) : ℤ) < max req.top_k 1 :=
    lt_of_lt_of_le zero_lt_one (le_max_right req.top_k 1)
  have := collectE_length ctx req q _ _ 0 pairs hcol h0
  simpa using this

/-- C5 witness: the two-product run returns 2 ≤ max 6 1 products. -/
theorem C5_topk_bound_witness :
    matchRun ctxA reqA = .ok [resA2, resA1] ∧
    ((([resA2, resA1] : List ProductResult).length : ℤ) ≤ max reqA.top_k 1) :=
  ⟨matchRunA, C5_topk_bound ctxA reqA [resA2, resA1] matchRunA⟩

/-- C5 counterexample: with `top_k = 0` the run still returns one product, so
"at most top_k products" fails for this value of `top_k`. -/
theorem C5_counterexample :
    matchRun ctxA reqC = .ok [resA2] ∧
    reqC.top_k = 0 ∧
    ¬ ((([resA2] : List ProductResult).length : ℤ) ≤ reqC.top_k) := by
  refine ⟨matchRunC, rfl, ?_⟩
  norm_num [reqC]

/-- C4 (as claimed): every image entry of a successful `/match` response
either has an unknown price or a parsed price inside the given bounds, and
the per-image skip predicate never fires on an unknown price. -/
theorem C4_price_filter_law :
    (∀ (ctx : Ctx) (req : MatchReq) (out : List ProductResult)
        (r : ProductResult) (e : ImageEntry),
        matchRun ctx req = .ok out → r ∈ out → e ∈ r.images →
        ∀ p, e.price = some p →
          (∀ m, req.price_min = some m → m ≤ p) ∧
          (∀ M, req.price_max = some M → p ≤ M)) ∧
    (∀ pmin pmax : Option ℚ, priceSkip pmin pmax none = false) := by
  constructor
  · intro ctx req out r e hrun hr he p hp
    rcases matchRun_ok_inv ctx req out hrun with ⟨pairs, hpair, rfl⟩
    rcases List.mem_map.mp hr with ⟨pr, hprmem, rfl⟩
    rcases matchPairs_ok_inv ctx req pairs hpair with ⟨c, q, _, _, hcol⟩
    have hspec := (collectE_mem_spec ctx req q _ _ _ _ hcol pr hprmem).2
    rw [hspec] at he
    have he2 : e ∈ imageEntriesFor ctx req q
        ((simsOf ctx q).getD pr.1 0) (candidatesFor ctx pr.1) := by
      have hperm := List.perm_insertionSort scoreGe
        (imageEntriesFor ctx req q ((simsOf ctx q).getD pr.1 0) (candidatesFor ctx pr.1))
      exact hperm.mem_iff.mp he
    exact mem_imageEntriesFor ctx req q _ _ e he2 p hp
  · intro pmin pmax
    exact priceSkip_none pmin pmax

/-- C4 witness: with `price_min = 150` the surviving entry has the known price
200 respecting the bound, and the skip predicate ignores unknown prices. -/
theorem C4_price_filter_law_witness :
    matchRun ctxA reqB = .ok [resA2] ∧
    entryOutA2 ∈ resA2.images ∧
    entryOutA2.price = some 200 ∧
    reqB.price_min = some 150 ∧
    (∀ m, reqB.price_min = some m → m ≤ 200) ∧
    (∀ M, reqB.price_max = some M → (200 : ℚ) ≤ M) ∧
    priceSkip reqB.price_min reqB.price_max none = false := by
  have hmem : entryOutA2 ∈ resA2.images := by
    show entryOutA2 ∈ [entryOutA2]
    exact List.mem_singleton.mpr rfl
  have h := C4_price_filter_law.1 ctxA reqB [resA2] resA2 entryOutA2 matchRunB
    (List.mem_singleton.mpr rfl) hmem 200 rfl
  exact ⟨matchRunB, hmem, rfl, rfl, h.1, h.2, C4_price_filter_law.2 reqB.price_min reqB.price_max⟩

/-- One request handled at process level: the response plus the process state
after the request.  The handler (main.py lines 96–202) only *reads* the module
globals loaded at startup (`products`, the two embedding matrices,
`image_index`, `model`); no statement assigns to them, so its state transition
is the identity on `Ctx`. -/
noncomputable def matchStep (ctx : Ctx) (req : MatchReq) :
    Except HErr (List ProductResult) × Ctx :=
  (matchRun ctx req, ctx)

/-- C9: with the (deterministic) embedder and collaborators fixed in `ctx`,
a `/match` request leaves the loaded artifact state unchanged, and re-running
the same request against the post-request state yields the identical
response. -/
theorem C9_idempotent_no_mutation (ctx : Ctx) (req : MatchReq) :
    (matchStep ctx req).2 = ctx ∧
    (matchStep (matchStep ctx req).2 req).1 = (matchStep ctx req).1 :=
  ⟨rfl, rfl⟩

/-- Replace only the outbound-fetch collaborator of a serving state. -/
def setFetch (ctx : Ctx) (f : String → Except String (List ℕ)) : Ctx :=
  ⟨ctx.products, ctx.product_embeddings, ctx.image_embeddings, ctx.image_index,
   ctx.max_width, ctx.decode, ctx.rgb, ctx.lanczos, ctx.encode, f⟩

/-- Drop the `image_url` form field of a request. -/
def clearUrl (req : MatchReq) : MatchReq :=
  ⟨req.file, none, req.top_k, req.threshold, req.price_min, req.price_max⟩

theorem collectE_setFetch (ctx : Ctx) (f : String → Except String (List ℕ))
    (req : MatchReq) (q_emb : Vec) (sims : List ℝ) :
    ∀ (l : List ℕ) (n : ℕ),
      collectE (setFetch ctx f) req q_emb sims n l = collectE ctx req q_emb sims n l := by
  intro l
  induction l with
  | nil => intro n; rfl
  | cons p rest ih =>
    intro n
    simp only [collectE]
    rw [show candidatesFor (setFetch ctx f) p = candidatesFor ctx p from rfl]
    rw [show imageEntriesFor (setFetch ctx f) req q_emb (sims.getD p 0) (candidatesFor ctx p) =
        imageEntriesFor ctx req q_emb (sims.getD p 0) (candidatesFor ctx p) from rfl]
    rw [show (setFetch ctx f).products = ctx.products from rfl]
    rw [ih, ih]

theorem collectE_clearUrl (ctx : Ctx) (req : MatchReq) (q_emb : Vec) (sims : List ℝ) :
    ∀ (l : List ℕ) (n : ℕ),
      collectE ctx (clearUrl req) q_emb sims n l = collectE ctx req q_emb sims n l := by
  intro l
  induction l with
  | nil => intro n; rfl
  | cons p rest ih =>
    intro n
    simp only [collectE]
    rw [show ((clearUrl req).threshold : ℝ) = (req.threshold : ℝ) from rfl]
    rw [show imageEntriesFor ctx (clearUrl req) q_emb (sims.getD p 0) (candidatesFor ctx p) =
        imageEntriesFor ctx req q_emb (sims.getD p 0) (candidatesFor ctx p) from rfl]
    rw [show (clearUrl req).top_k = req.top_k from rfl]
    rw [ih, ih]

/-- C10: when a request carries both an uploaded file and an `image_url`, the
upload wins: the response is insensitive to the fetch collaborator (no network
fetch is attempted), dropping `image_url` does not change the response, and
the bytes handed to the embedding pipeline are exactly the uploaded ones (with
the fetch-attempted flag false). -/
theorem C10_upload_wins (ctx : Ctx) (req : MatchReq) (content : List ℕ)
    (hfile : req.file = some content) :
    (∀ f1 f2, matchRun (setFetch ctx f1) req = matchRun (setFetch ctx f2) req) ∧
    matchRun ctx (clearUrl req) = matchRun ctx req ∧
    (∀ pr, obtainBytes ctx req = .ok pr → pr = (content, false)) := by
  refine ⟨?_, ?_, ?_⟩
  · intro f1 f2
    unfold matchRun
    unfold matchPairs obtainBytes
    rw [hfile]
    dsimp only
    by_cases hc : content = []
    · rw [if_pos hc]
    · rw [if_neg hc]
      dsimp only
      rw [show img_bytes_to_emb (setFetch ctx f1) content = img_bytes_to_emb ctx content from rfl]
      rw [show img_bytes_to_emb (setFetch ctx f2) content = img_bytes_to_emb ctx content from rfl]
      cases img_bytes_to_emb ctx content with
      | error e => rfl
      | ok q_emb =>
        dsimp only
        rw [show simsOf (setFetch ctx f1) q_emb = simsOf ctx q_emb from rfl]
        rw [show simsOf (setFetch ctx f2) q_emb = simsOf ctx q_emb from rfl]
        rw [collectE_setFetch ctx f1 req q_emb (simsOf ctx q_emb) (argsortDesc (simsOf ctx q_emb)) 0]
        rw [collectE_setFetch ctx f2 req q_emb (simsOf ctx q_emb) (argsortDesc (simsOf ctx q_emb)) 0]
  · unfold matchRun
    unfold matchPairs obtainBytes
    rw [show (clearUrl req).file = req.file from rfl, hfile]
    dsimp only
    by_cases hc : content = []
    · rw [if_pos hc]
    · rw [if_neg hc]
      dsimp only
      cases img_bytes_to_emb ctx content with
      | error e => rfl
      | ok q_emb =>
        dsimp only
        rw [collectE_clearUrl ctx req q_emb (simsOf ctx q_emb) (argsortDesc (simsOf ctx q_emb)) 0]
  · intro pr hpr
    unfold obtainBytes at hpr
    rw [hfile] at hpr
    dsimp only at hpr
    by_cases hc : content = []
    · rw [if_pos hc] at hpr
      cases hpr
    · rw [if_neg hc] at hpr
      cases hpr
      rfl

/-- A request carrying both an upload and a URL. -/
def reqBoth : MatchReq := ⟨some [1], some "http://example.com/q.jpg", 6, 0, none, none⟩

/-- C10 witness: with both sources present, swapping the fetch collaborator
between a successful and a failing one does not change the response, dropping
the URL does not change it either, and the bytes used are the uploaded ones. -/
theorem C10_upload_wins_witness :
    reqBoth.file = some [1] ∧
    matchRun (setFetch ctxA (fun _ => .ok [7])) reqBoth =
      matchRun (setFetch ctxA (fun _ => .error "boom")) reqBoth ∧
    matchRun ctxA (clearUrl reqBoth) = matchRun ctxA reqBoth ∧
    obtainBytes ctxA reqBoth = .ok ([1], false) := by
  have h := C10_upload_wins ctxA reqBoth [1] rfl
  exact ⟨rfl, h.1 (fun _ => .ok [7]) (fun _ => .error "boom"), h.2.1, rfl⟩

/-- Norm bounds of the epsilon-guarded normalization of a nonzero vector:
strictly below 1, and within `ε/‖v‖` of 1. -/
theorem normalizeEps_norm_bounds (v : Vec) (h : l2norm v ≠ 0) :
    l2norm (normalizeEps v) ≤ 1 ∧ 1 - eps / l2norm v ≤ l2norm (normalizeEps v) := by
  have hn := l2norm_nonneg v
  have hpos : 0 < l2norm v := lt_of_le_of_ne hn (Ne.symm h)
  have hde := l2norm_add_eps_pos v
  have heps : (0 : ℝ) < eps := by unfold eps; norm_num
  rw [l2norm_normalizeEps]
  constructor
  · exact (div_le_one hde).mpr (by linarith)
  · have h1 : l2norm v / (l2norm v + eps) = 1 - eps / (l2norm v + eps) := by
      field_simp
    have h2 : eps / (l2norm v + eps) ≤ eps / l2norm v := by
      gcongr
      linarith
    rw [h1]
    linarith

/-- C2 (amended).  The query embedding produced by `img_to_embedding` and any
product-embedding row built from a nonzero image-embedding mean have L2 norm
within `ε/‖raw‖` of unit (and never above 1).  The rows of the *stored
image-embedding matrix*, however, are the raw encoder outputs — the builder
appends `emb` before any normalization — so they carry no unit-norm
guarantee. -/
theorem C2_unit_norms :
    (∀ (ctx : Ctx) (img : Img),
        l2norm (ctx.encode img) ≠ 0 →
        l2norm (img_to_embedding ctx img) ≤ 1 ∧
        1 - eps / l2norm (ctx.encode img) ≤ l2norm (img_to_embedding ctx img)) ∧
    (∀ (bctx : BuildCtx) (p_idx : ℕ) (prod : BProduct),
        validImages bctx p_idx prod ≠ [] →
        l2norm (vmean ((validImages bctx p_idx prod).map (fun pr => pr.1))) ≠ 0 →
        l2norm (productRow bctx p_idx prod) ≤ 1 ∧
        1 - eps / l2norm (vmean ((validImages bctx p_idx prod).map (fun pr => pr.1))) ≤
          l2norm (productRow bctx p_idx prod)) ∧
    (∀ (bctx : BuildCtx) (prods : List BProduct) (row : Vec),
        row ∈ (buildArtifacts bctx prods).2.1 →
        ∃ f, bctx.encode_file f = some row) := by
  refine ⟨?_, ?_, ?_⟩
  · intro ctx img h
    exact normalizeEps_norm_bounds (ctx.encode img) h
  · intro bctx p_idx prod hne hmean
    have hrow : productRow bctx p_idx prod =
        normalizeEps (vmean ((validImages bctx p_idx prod).map (fun pr => pr.1))) := by
      unfold productRow
      rw [if_neg]
      intro hcontra
      exact hne (List.isEmpty_iff.mp hcontra)
    rw [hrow]
    exact normalizeEps_norm_bounds _ hmean
  · intro bctx prods row hrow
    unfold buildArtifacts at hrow
    rcases List.mem_flatten.mp hrow with ⟨l, hl, hrl⟩
    rcases List.mem_map.mp hl with ⟨pr, _, rfl⟩
    rcases List.mem_map.mp hrl with ⟨ve, hve, rfl⟩
    unfold validImages at hve
    rcases List.mem_filterMap.mp hve with ⟨im, _, hbuild⟩
    by_cases hex : bctx.exists_file (imgFields pr.2 im).1
    · rw [if_pos hex] at hbuild
      rcases Option.map_eq_some'.mp hbuild with ⟨emb, henc, hpair⟩
      refine ⟨(imgFields pr.2 im).1, ?_⟩
      rw [henc]
      cases hpair
      rfl
    · rw [if_neg hex] at hbuild
      cases hbuild

theorem sumSq_one_zero : sumSq [(1 : ℝ), 0] = 1 := by
  norm_num [sumSq]

theorem l2norm_one_zero : l2norm [(1 : ℝ), 0] = 1 := by
  unfold l2norm
  rw [sumSq_one_zero]
  exact Real.sqrt_one

/-- The serving state of `ctxA` with an encoder that returns the unit vector
`[1, 0]`. -/
noncomputable def ctxW : Ctx :=
  ⟨[prodA1, prodA2], [[0], [0]], [[0], [0]], [entA1, entA2], 1024,
    fun _ => .ok imgA, id, fun _ _ _ => 0, fun _ => [1, 0],
    fun _ => .error "connection refused"⟩

/-- Builder state whose encoder returns `[2, 0]` for every file. -/
def ctxB2 : BuildCtx := ⟨fun _ => true, fun _ => some [2, 0], 2⟩

def prodB2 : BProduct := ⟨some "x", JPrice.null, [ImgRec.dict "a.jpg" (JPrice.str "5")]⟩

/-- C2 witness: a unit raw embedding gives a query embedding with norm in
`[1 - ε, 1]`, and the single stored image row of the `[2,0]`-encoder build is
indeed an encoder output. -/
theorem C2_unit_norms_witness :
    l2norm (ctxW.encode imgA) ≠ 0 ∧
    (l2norm (img_to_embedding ctxW imgA) ≤ 1 ∧
      1 - eps / l2norm (ctxW.encode imgA) ≤ l2norm (img_to_embedding ctxW imgA)) ∧
    ([2, 0] : Vec) ∈ (buildArtifacts ctxB2 [prodB2]).2.1 ∧
    (∃ f, ctxB2.encode_file f = some [2, 0]) := by
  have hne : l2norm (ctxW.encode imgA) ≠ 0 := by
    show l2norm [(1 : ℝ), 0] ≠ 0
    rw [l2norm_one_zero]
    norm_num
  have hmem : ([2, 0] : Vec) ∈ (buildArtifacts ctxB2 [prodB2]).2.1 := by
    show ([2, 0] : Vec) ∈ [[2, 0]]
    exact List.mem_singleton.mpr rfl
  exact ⟨hne, C2_unit_norms.1 ctxW imgA hne, hmem,
    C2_unit_norms.2.2 ctxB2 [prodB2] [2, 0] hmem⟩

theorem sumSq_two_zero : sumSq [(2 : ℝ), 0] = 4 := by
  norm_num [sumSq]

theorem l2norm_two_zero : l2norm [(2 : ℝ), 0] = 2 := by
  unfold l2norm
  rw [sumSq_two_zero]
  rw [show (4 : ℝ) = 2 ^ 2 by norm_num]
  exact Real.sqrt_sq (by norm_num)

/-- C2 counterexample: the build with the `[2,0]` encoder stores the image
row `[2, 0]`, whose L2 norm is 2 — not within any floating-point tolerance of
unit length, refuting "every row of the stored image-embedding matrix has unit
L2 norm". -/
theorem C2_counterexample :
    (buildArtifacts ctxB2 [prodB2]).2.1 = [[2, 0]] ∧
    l2norm [(2 : ℝ), 0] = 2 ∧
    ¬ |l2norm [(2 : ℝ), 0] - 1| ≤ 1 / 2 := by
  refine ⟨rfl, l2norm_two_zero, ?_⟩
  rw [l2norm_two_zero]
  norm_num

/-- C3 (amended): `build` emits exactly one product row per catalog product in
order; a product with no surviving image gets the `dim`-zero sentinel row; a
product with surviving images gets the epsilon-guarded normalization of the
mean of its raw per-image embeddings, which is non-zero *whenever that mean
is non-zero* (zero-mean image sets — possible since the embedder is opaque —
produce a zero row through the epsilon guard). -/
theorem C3_build_rows (bctx : BuildCtx) (prods : List BProduct) :
    (buildArtifacts bctx prods).1.length = prods.length ∧
    (∀ (i : ℕ) (p : BProduct), prods.get? i = some p →
      (buildArtifacts bctx prods).1.get? i = some (productRow bctx i p) ∧
      (validImages bctx i p = [] →
        productRow bctx i p = List.replicate bctx.dim 0) ∧
      (validImages bctx i p ≠ [] →
        productRow bctx i p =
          normalizeEps (vmean ((validImages bctx i p).map (fun pr => pr.1))) ∧
        (sumSq (vmean ((validImages bctx i p).map (fun pr => pr.1))) ≠ 0 →
          sumSq (productRow bctx i p) ≠ 0))) := by
  constructor
  · show (prods.enum.map fun pr => productRow bctx pr.1 pr.2).length = prods.length
    rw [List.length_map, List.enum_length]
  · intro i p hip
    refine ⟨?_, ?_, ?_⟩
    · show (prods.enum.map fun pr => productRow bctx pr.1 pr.2).get? i = _
      rw [List.get?_map, List.get?_enum, hip]
      rfl
    · intro hempty
      unfold productRow
      rw [if_pos]
      rw [List.isEmpty_iff]
      exact hempty
    · intro hne
      have hrow : productRow bctx i p =
          normalizeEps (vmean ((validImages bctx i p).map (fun pr => pr.1))) := by
        unfold productRow
        rw [if_neg]
        intro hcontra
        exact hne (List.isEmpty_iff.mp hcontra)
      refine ⟨hrow, ?_⟩
      intro hmean
      rw [hrow, sumSq_normalizeEps]
      exact div_ne_zero hmean (pow_ne_zero 2 (ne_of_gt (l2norm_add_eps_pos _)))

/-- A catalog product carrying no image records at all. -/
def prodEmpty : BProduct := ⟨some "e", JPrice.null, []⟩

/-- C3 witness: on the catalog `[prodEmpty, prodB2]` with the `[2,0]` encoder,
the builder emits two rows, the imageless product gets the zero sentinel, and
the imaged product gets a non-zero row. -/
theorem C3_build_rows_witness :
    (buildArtifacts ctxB2 [prodEmpty, prodB2]).1.length = 2 ∧
    validImages ctxB2 0 prodEmpty = [] ∧
    productRow ctxB2 0 prodEmpty = List.replicate 2 0 ∧
    validImages ctxB2 1 prodB2 ≠ [] ∧
    sumSq (productRow ctxB2 1 prodB2) ≠ 0 := by
  have h := C3_build_rows ctxB2 [prodEmpty, prodB2]
  have h0 := h.2 0 prodEmpty rfl
  have h1 := h.2 1 prodB2 rfl
  have hvne : validImages ctxB2 1 prodB2 ≠ [] := by
    have hlen : (validImages ctxB2 1 prodB2).length = 1 := rfl
    intro hc
    rw [hc] at hlen
    cases hlen
  have hmean : sumSq (vmean ((validImages ctxB2 1 prodB2).map (fun pr => pr.1))) ≠ 0 := by
    have hv : (validImages ctxB2 1 prodB2).map (fun pr => pr.1) = [[2, 0]] := rfl
    have hm : vmean ([[2, 0]] : List Vec) = [2, 0] := by
      norm_num [vmean, vsum]
    rw [hv, hm, sumSq_two_zero]
    norm_num
  exact ⟨h.1, rfl, h0.2.1 rfl, hvne, (h1.2.2 hvne).2 hmean⟩

/-- Builder state whose two catalog images embed to `[1]` and `[-1]`. -/
def ctxB3 : BuildCtx :=
  ⟨fun _ => true, fun f => if f = "a.jpg" then some [1] else some [-1], 1⟩

def prodB3 : BProduct :=
  ⟨some "y", JPrice.null,
    [ImgRec.dict "a.jpg" (JPrice.str "1"), ImgRec.dict "b.jpg" (JPrice.str "2")]⟩

/-- C3 counterexample: a product with two successfully embedded images whose
raw embeddings cancel gets the zero product row — the claimed unconditional
"non-zero" fails. -/
theorem C3_counterexample :
    (validImages ctxB3 0 prodB3).length = 2 ∧
    productRow ctxB3 0 prodB3 = [0] ∧
    sumSq ([0] : Vec) = 0 := by
  refine ⟨rfl, ?_, by norm_num [sumSq]⟩
  have hv : (validImages ctxB3 0 prodB3).map (fun pr => pr.1) = [[1], [-1]] := rfl
  have hmean : vmean ([[1], [-1]] : List Vec) = [0] := by
    norm_num [vmean, vsum, vadd]
  unfold productRow
  rw [if_neg]
  · rw [hv, hmean]
    unfold normalizeEps
    norm_num
  · rw [show (validImages ctxB3 0 prodB3).isEmpty = false from rfl]
    simp

/-- C6 (amended): a decoded image wider than `max_width` is resized to width
`max_width` and height `⌊max_width · h / w⌋` — Python's `int()` *truncates*
the quotient (it does not round to nearest) — while an image at most
`max_width` wide passes through at its original size (only the RGB conversion
touches it). -/
theorem C6_resize (ctx : Ctx) (img_bytes : List ℕ) (img0 : Img)
    (hdec : ctx.decode img_bytes = .ok img0) :
    (img0.width ≤ ctx.max_width →
      pil_open_and_normalize ctx img_bytes = .ok (convertRGB ctx img0)) ∧
    (ctx.max_width < img0.width →
      ∃ r, pil_open_and_normalize ctx img_bytes = .ok r ∧
        r.width = ctx.max_width ∧
        r.height = ⌊((ctx.max_width * img0.height : ℕ) : ℚ) / ((img0.width : ℕ) : ℚ)⌋₊) := by
  constructor
  · intro hle
    unfold pil_open_and_normalize
    rw [hdec]
    dsimp only
    rw [if_neg]
    show ¬ ctx.max_width < (convertRGB ctx img0).width
    exact not_lt.mpr hle
  · intro hgt
    unfold pil_open_and_normalize
    rw [hdec]
    dsimp only
    rw [if_pos]
    · refine ⟨_, rfl, rfl, ?_⟩
      show ctx.max_width * img0.height / img0.width = _
      rw [Nat.floor_div_eq_div]
    · show ctx.max_width < (convertRGB ctx img0).width
      exact hgt

/-- A serving state whose decoder yields a 10×10 image for the byte string
`[9]` and a 2048×1023 image otherwise. -/
noncomputable def ctxD : Ctx :=
  ⟨[], [], [], [], 1024,
    fun b => if b = [9] then .ok ⟨10, 10, 0⟩ else .ok ⟨2048, 1023, 0⟩,
    id, fun _ _ _ => 0, fun _ => [0], fun _ => .error "x"⟩

/-- C6 witness: the small image passes through untouched; the wide image is
resized to 1024 × ⌊1024·1023/2048⌋ = 1024 × 511. -/
theorem C6_resize_witness :
    pil_open_and_normalize ctxD [9] = .ok ⟨10, 10, 0⟩ ∧
    (∃ r, pil_open_and_normalize ctxD [1] = .ok r ∧
      r.width = 1024 ∧
      r.height = ⌊((1024 * 1023 : ℕ) : ℚ) / ((2048 : ℕ) : ℚ)⌋₊) := by
  constructor
  · have h := (C6_resize ctxD [9] ⟨10, 10, 0⟩ rfl).1
      (show (10 : ℕ) ≤ 1024 by norm_num)
    exact h
  · have h := (C6_resize ctxD [1] ⟨2048, 1023, 0⟩ rfl).2
      (show (1024 : ℕ) < 2048 by norm_num)
    exact h

/-- C6 counterexample: at 2048×1023 the exact quotient is 511.5; the code
produces height 511 (truncation) whereas the claimed rounding gives 512. -/
theorem C6_counterexample :
    pil_open_and_normalize ctxD [1] = .ok ⟨1024, 511, 0⟩ ∧
    round ((1024 * 1023 : ℚ) / 2048) = 512 ∧
    ((511 : ℤ) ≠ round ((1024 * 1023 : ℚ) / 2048)) := by
  refine ⟨rfl, ?_, ?_⟩ <;> norm_num [round_eq]

/-- `cosSim` also vanishes when the right argument is the zero vector. -/
theorem cosSim_right_zero (n : ℕ) (q : Vec) :
    cosSim q (List.replicate n 0) = 0 := by
  unfold cosSim
  rw [if_pos]
  right
  rw [l2norm_eq_zero_iff]
  exact sumSq_replicate_zero n

/-- C7: a file missing at build time contributes neither an image-embedding
row nor an index entry (every stored entry names an existing file, and the two
artifacts stay parallel); a product whose every image was skipped gets the
zero sentinel row; that row's cosine similarity with *any* query is 0; and a
catalog position with no index entry never appears in any `/match` output. -/
theorem C7_missing_image (bctx : BuildCtx) (prods : List BProduct) :
    (∀ e ∈ (buildArtifacts bctx prods).2.2,
        ∃ f, e.file = some f ∧ bctx.exists_file f = true) ∧
    (buildArtifacts bctx prods).2.1.length = (buildArtifacts bctx prods).2.2.length ∧
    (∀ (i : ℕ) (p : BProduct), prods.get? i = some p →
        validImages bctx i p = [] →
        productRow bctx i p = List.replicate bctx.dim 0) ∧
    (∀ q : Vec, cosSim (List.replicate bctx.dim 0) q = 0) ∧
    (∀ (mctx : Ctx) (req : MatchReq) (p0 : ℕ),
        (∀ e ∈ mctx.image_index, e.product_idx ≠ p0) →
        ∀ pairs, matchPairs mctx req = .ok pairs → ∀ pr ∈ pairs, pr.1 ≠ p0) := by
  refine ⟨?_, ?_, ?_, ?_, ?_⟩
  · intro e he
    unfold buildArtifacts at he
    rcases List.mem_flatten.mp he with ⟨l, hl, hel⟩
    rcases List.mem_map.mp hl with ⟨pr, _, rfl⟩
    rcases List.mem_map.mp hel with ⟨ve, hve, rfl⟩
    unfold validImages at hve
    rcases List.mem_filterMap.mp hve with ⟨im, _, hbuild⟩
    by_cases hex : bctx.exists_file (imgFields pr.2 im).1
    · rw [if_pos hex] at hbuild
      rcases Option.map_eq_some'.mp hbuild with ⟨emb, _, hpair⟩
      refine ⟨(imgFields pr.2 im).1, ?_, hex⟩
      cases hpair
      rfl
    · rw [if_neg hex] at hbuild
      cases hbuild
  · show (List.flatten _).length = (List.flatten _).length
    rw [List.length_flatten, List.length_flatten, List.map_map, List.map_map]
    congr 1
    apply List.map_congr_left
    intro pr _
    show ((validImages bctx pr.1 pr.2).map (fun q => q.1)).length =
      ((validImages bctx pr.1 pr.2).map (fun q => q.2)).length
    rw [List.length_map, List.length_map]
  · intro i p _ hempty
    unfold productRow
    rw [if_pos]
    rw [List.isEmpty_iff]
    exact hempty
  · intro q
    exact cosSim_zero_left bctx.dim q
  · intro mctx req p0 hnone pairs hpairs pr hpr
    have hc : candidatesFor mctx p0 = [] := by
      unfold candidatesFor
      rw [List.filter_eq_nil_iff.mpr ?_]
      · rfl
      · intro x hx
        have hmem : x.2 ∈ mctx.image_index := by
          have h2 := List.mem_enum_iff_get?.mp hx
          exact List.get?_mem h2
        simp only [decide_eq_true_eq]
        exact hnone x.2 hmem
    rcases matchPairs_ok_inv mctx req pairs hpairs with ⟨c, q, _, _, hcol⟩
    exact collectE_not_mem mctx req q _ p0 hc _ _ _ hcol pr hpr

/-- Builder state where every catalog file is missing on disk. -/
def ctxB7 : BuildCtx := ⟨fun _ => false, fun _ => some [1, 0], 2⟩

def prodM : BProduct := ⟨some "m", JPrice.null, [ImgRec.dict "m.jpg" (JPrice.str "10")]⟩

/-- Serving state loaded from the `ctxB7` build of `[prodM]`: one product, a
zero product row, empty image matrix and index; the encoder is non-trivial. -/
noncomputable def ctxM : Ctx :=
  ⟨[⟨some "m", some "Missing", some "c"⟩], [List.replicate 2 0], [], [], 1024,
    fun _ => .ok imgA, id, fun _ _ _ => 0, fun _ => [1, 0],
    fun _ => .error "e"⟩

theorem simsM : simsOf ctxM (img_to_embedding ctxM imgA) = [0] := by
  show [cosSim (img_to_embedding ctxM imgA) (List.replicate 2 0)] = [0]
  rw [cosSim_right_zero]

theorem collectM (q : Vec) : collectE ctxM reqA q [0] 0 [0] = .ok [] := by
  have hth : ¬ (([0] : List ℝ).getD 0 0 < ((reqA.threshold : ℚ) : ℝ)) := by
    norm_num [reqA]
  have hc : candidatesFor ctxM 0 = [] := rfl
  simp only [collectE]
  rw [if_neg hth, if_pos hc]

theorem matchPairsM : matchPairs ctxM reqA = .ok [] := by
  unfold matchPairs
  rw [show obtainBytes ctxM reqA = .ok ([1], false) from rfl]
  dsimp only
  rw [show img_bytes_to_emb ctxM [1] = .ok (img_to_embedding ctxM imgA) from rfl]
  dsimp only
  rw [simsM, show argsortDesc [(0 : ℝ)] = [0] from rfl, collectM _]

/-- C7 witness: the all-files-missing build of the one-product catalog leaves
both image artifacts empty, gives the product the zero sentinel row, that row
scores 0 against the genuinely non-zero query `[1,0]`, and `/match` against
the resulting artifacts returns no results at all. -/
theorem C7_missing_image_witness :
    validImages ctxB7 0 prodM = [] ∧
    (buildArtifacts ctxB7 [prodM]).2.1 = [] ∧
    (buildArtifacts ctxB7 [prodM]).2.2 = [] ∧
    productRow ctxB7 0 prodM = List.replicate 2 0 ∧
    l2norm [(1 : ℝ), 0] = 1 ∧
    cosSim (List.replicate 2 0) [(1 : ℝ), 0] = 0 ∧
    matchPairs ctxM reqA = .ok [] ∧
    (∀ pr ∈ ([] : List (ℕ × ProductResult)), pr.1 ≠ 0) := by
  have h := C7_missing_image ctxB7 [prodM]
  have h5 := h.2.2.2.2 ctxM reqA 0 (by intro e he; cases he) [] matchPairsM
  exact ⟨rfl, rfl, rfl, h.2.2.1 0 prodM rfl rfl, l2norm_one_zero,
    h.2.2.2.1 [(1 : ℝ), 0], matchPairsM, h5⟩

/-- C8: every client-input failure short-circuits `/match` into a 400
`HTTPException` whose detail names the cause, before any ranking: no image
source at all, an empty upload, a failing remote download (the underlying
`RequestException` text is appended), and undecodable bytes (the decoder's
exception text is appended). -/
theorem C8_client_errors :
    (∀ (ctx : Ctx) (req : MatchReq),
        req.file = none → req.image_url = none →
        matchRun ctx req = .error ⟨400, "No image provided (send file or image_url)"⟩) ∧
    (∀ (ctx : Ctx) (req : MatchReq),
        req.file = some [] →
        matchRun ctx req = .error ⟨400, "Uploaded file is empty"⟩) ∧
    (∀ (ctx : Ctx) (req : MatchReq) (url e : String),
        req.file = none → req.image_url = some url → url ≠ "" →
        ctx.fetch url = .error e →
        matchRun ctx req = .error ⟨400, "Failed to download image_url: " ++ e⟩) ∧
    (∀ (ctx : Ctx) (req : MatchReq) (content : List ℕ) (e : String),
        req.file = some content → content ≠ [] → ctx.decode content = .error e →
        matchRun ctx req = .error ⟨400, "Image decoding/encoding failed: " ++ e⟩) := by
  refine ⟨?_, ?_, ?_, ?_⟩
  · intro ctx req h1 h2
    unfold matchRun matchPairs obtainBytes
    rw [h1, h2]
    rfl
  · intro ctx req h1
    unfold matchRun matchPairs obtainBytes
    rw [h1]
    rfl
  · intro ctx req url e h1 h2 h3 h4
    unfold matchRun matchPairs obtainBytes
    rw [h1, h2]
    dsimp only
    rw [if_neg h3, h4]
    rfl
  · intro ctx req content e h1 h2 h3
    unfold matchRun matchPairs obtainBytes
    rw [h1]
    dsimp only
    rw [if_neg h2]
    dsimp only
    unfold img_bytes_to_emb pil_open_and_normalize
    rw [h3]
    rfl

def reqNone : MatchReq := ⟨none, none, 6, 0, none, none⟩

def reqEmpty : MatchReq := ⟨some [], none, 6, 0, none, none⟩

def reqUrl : MatchReq := ⟨none, some "http://example.com/i.jpg", 6, 0, none, none⟩

/-- Serving state whose decoder always raises. -/
noncomputable def ctxE : Ctx :=
  ⟨[prodA1, prodA2], [[0], [0]], [[0], [0]], [entA1, entA2], 1024,
    fun _ => .error "cannot identify image file", id, fun _ _ _ => 0,
    fun _ => [0], fun _ => .error "connection refused"⟩

/-- C8 witness: the four client-error paths at concrete states. -/
theorem C8_client_errors_witness :
    matchRun ctxA reqNone = .error ⟨400, "No image provided (send file or image_url)"⟩ ∧
    matchRun ctxA reqEmpty = .error ⟨400, "Uploaded file is empty"⟩ ∧
    matchRun ctxA reqUrl =
      .error ⟨400, "Failed to download image_url: " ++ "connection refused"⟩ ∧
    matchRun ctxE reqA =
      .error ⟨400, "Image decoding/encoding failed: " ++ "cannot identify image file"⟩ := by
  refine ⟨?_, ?_, ?_, ?_⟩
  · exact C8_client_errors.1 ctxA reqNone rfl rfl
  · exact C8_client_errors.2.1 ctxA reqEmpty rfl
  · exact C8_client_errors.2.2.1 ctxA reqUrl "http://example.com/i.jpg"
      "connection refused" rfl rfl (by decide) rfl
  · exact C8_client_errors.2.2.2 ctxE reqA [1] "cannot identify image file"
      rfl (by decide) rfl
